import Mathlib

/-!
Verification of the vedo visualization toolkit's applications, assembly and
package-bootstrap layers against their specification.

The Python sources (vedo/applications.py, vedo/assembly.py, vedo/__init__.py)
are shallowly embedded below.  Machine floats are modelled by exact rationals,
Python strings by lists of characters, and Python exceptions by `Except`.
Helpers of the repository that live outside the three given files
(vedo.utils.flatten, vedo.utils.lin_interpolate, numpy.linspace and the VTK
Procrustes filter) are modelled from the specification text and carry a
doc comment saying so.
-/

/-- Error kinds raised by the embedded code, following the spec's taxonomy
(section 7): `invalidInput` stands for the RuntimeError raised on malformed
input, `nameError` for Python's NameError on an unbound local variable. -/
inductive VedoError where
  | invalidInput
  | nameError
deriving DecidableEq

/-- Python `int()` applied to a rational: truncation toward zero. -/
def pyInt (q : ℚ) : ℤ := if 0 ≤ q then ⌊q⌋ else ⌈q⌉

/-! ## Slicer3DPlotter: histogram-based scalar-range clamping

`applications.py` lines 105-112.  The histogram centroid `meanlog` is kept as a
parameter (the claims quantify over it); the embedded part is the pair of
sequential assignments

    rmax = min(rmax, meanlog + (meanlog - rmin) * 0.9)
    rmin = max(rmin, meanlog - (rmax - meanlog) * 0.9)

note that the second line reads the `rmax` already reassigned by the first. -/

/-- The clamp step of `Slicer3DPlotter.__init__` (`clamp=True`): returns the
pair (display min, display max) computed from the raw scalar range
`(rmin, rmax)` and the log-weighted histogram centroid `meanlog`. -/
def slicerClampRange (rmin rmax meanlog : ℚ) : ℚ × ℚ :=
  let rmax2 := min rmax (meanlog + (meanlog - rmin) * (9 / 10))
  let rmin2 := max rmin (meanlog - (rmax2 - meanlog) * (9 / 10))
  (rmin2, rmax2)

/-! ## Animation: time quantization in `_parse`

`applications.py` lines 1269-1274:

    t = int(t / self.time_resolution + 0.5) * self.time_resolution
    nsteps = int(duration / self.time_resolution + 0.5)
    duration = nsteps * self.time_resolution
-/

/-- Quantization of a booked start time and duration onto the time grid of
resolution `res`, as performed by `Animation._parse`.  Returns the stored
(start time, duration). -/
def animationQuantize (res t duration : ℚ) : ℚ × ℚ :=
  let t2 := (pyInt (t / res + 1 / 2) : ℚ) * res
  let nsteps := pyInt (duration / res + 1 / 2)
  let duration2 := (nsteps : ℚ) * res
  (t2, duration2)

/-! ## Animation.change_lighting (booking phase)

`applications.py` lines 1433-1472.  An actor is reduced to the lighting
properties the booking reads (`GetAmbient`, `GetDiffuse`, `GetSpecular`,
`GetSpecularPower`); a booked event is the tuple
(quantized tick time, action name, actors, precomputed input values)
appended to `Animation.events`. -/

/-- Lighting state of one actor, as read by `change_lighting` during booking. -/
structure LightProp where
  ambient : ℚ
  diffuse : ℚ
  specular : ℚ
  specularPower : ℚ
deriving DecidableEq

/-- One entry of `Animation.events`. -/
abbrev AnimEvent : Type := ℚ × String × List LightProp × List (ℚ × ℚ × ℚ × ℚ)

/-- Modelled from the spec: `vedo.utils.lin_interpolate` (not under src/),
section 4.3: "lin_interpolate(t, [t0,t1], [v0,v1]) returns
v0 + (t-t0)/(t1-t0)*(v1-v0)".  Over ℚ, division by zero yields zero. -/
def lin_interpolate (t t0 t1 v0 v1 : ℚ) : ℚ := v0 + (t - t0) / (t1 - t0) * (v1 - v0)

/-- Modelled from the spec: `numpy.linspace a b num` (external dependency),
`num` evenly spaced samples from `a` to `b` inclusive; with `num = 1` the
single sample is `a`. -/
def linspace (a b : ℚ) (num : ℕ) : List ℚ :=
  if num ≤ 1 then List.replicate num a
  else (List.range num).map (fun i => a + (b - a) * i / (num - 1 : ℕ))

/-- The preset table of `change_lighting`: ambient, diffuse, specular and
specular power for each recognized style name; `none` when the style is not
recognized, in which case the Python local `pars` stays unbound. -/
def lightingPars (style : String) : Option (ℚ × ℚ × ℚ × ℚ) :=
  if style = ("metallic" : String) then some (1 / 10, 3 / 10, 1, 10)
  else if style = ("plastic" : String) then some (3 / 10, 2 / 5, 3 / 10, 5)
  else if style = ("shiny" : String) then some (1 / 5, 3 / 5, 4 / 5, 50)
  else if style = ("glossy" : String) then some (1 / 10, 7 / 10, 9 / 10, 90)
  else if style = ("default" : String) then some (1 / 10, 1, 1 / 20, 5)
  else none

/-- The booking branch of `Animation.change_lighting`: quantizes time and
duration as `_parse` does, then for each tick appends one event carrying the
interpolated lighting values of every actor.  For an unrecognized style the
source logs an error but leaves the local `pars` unbound, so the first read
`pars[0]` raises NameError when the actor list is nonempty; with an empty
actor list the per-tick events (with empty value lists) are still appended. -/
def changeLightingBook (res : ℚ) (style : String) (acts : List LightProp)
    (t duration : ℚ) (events : List AnimEvent) : Except VedoError (List AnimEvent) :=
  let tq := (pyInt (t / res + 1 / 2) : ℚ) * res
  let nsteps := pyInt (duration / res + 1 / 2)
  let durq := (nsteps : ℚ) * res
  let rng := linspace tq (tq + durq) (nsteps.toNat + 1)
  match lightingPars style with
  | some p =>
      .ok (events ++ rng.map (fun tt =>
        (tt, ("change_lighting" : String), acts, acts.map (fun a =>
          (lin_interpolate tt tq (tq + durq) a.ambient p.1,
           lin_interpolate tt tq (tq + durq) a.diffuse p.2.1,
           lin_interpolate tt tq (tq + durq) a.specular p.2.2.1,
           lin_interpolate tt tq (tq + durq) a.specularPower p.2.2.2)))))
  | none =>
      if acts.isEmpty then
        .ok (events ++ rng.map (fun tt =>
          (tt, ("change_lighting" : String), acts, [])))
      else .error .nameError

/-! ## FreeHandCutPlotter: save-target filename ("s" key)

`applications.py` lines 1055-1063:

    if self.mesh.filename:
        fname = os.path.basename(self.mesh.filename)
        fname, extension = os.path.splitext(fname)
        fname = fname.replace("_edited", "")
        fname = f"(stem)_edited(extension)"
    else:
        fname = "mesh_edited.vtk"

Strings are embedded as `List Char`; a missing filename is the empty list. -/

/-- Is `pat` a leading segment of `cs`? -/
def startsWithChars : List Char → List Char → Bool
  | [], _ => true
  | _ :: _, [] => false
  | p :: ps, c :: cs => p = c && startsWithChars ps cs

/-- Python `pat in s`: does `cs` contain `pat` as a contiguous run? -/
def hasSubChars (pat : List Char) : List Char → Bool
  | [] => startsWithChars pat []
  | c :: cs => startsWithChars pat (c :: cs) || hasSubChars pat cs

/-- `os.path.basename` on a POSIX path: the part after the last slash. -/
def pyBasename (cs : List Char) : List Char :=
  (cs.reverse.takeWhile (fun c => c ≠ '/')).reverse

/-- Index of the last occurrence of `c` in `cs`, if any. -/
def lastIdxOf (cs : List Char) (c : Char) : Option Nat :=
  match cs.reverse.findIdx? (fun x => x = c) with
  | none => none
  | some j => some (cs.length - 1 - j)

/-- `os.path.splitext` on a separator-free name (the source applies it after
`os.path.basename`): split at the last dot, except that a name consisting of
leading dots only up to that dot (such as ".bashrc") keeps an empty
extension. -/
def pySplitext (cs : List Char) : List Char × List Char :=
  match lastIdxOf cs '.' with
  | none => (cs, [])
  | some i =>
      if (cs.take i).all (fun c => c = '.') then (cs, [])
      else (cs.take i, cs.drop i)

/-- Worker for `pyReplace`; the fuel is an upper bound on the number of steps
and is never exhausted when the pattern is nonempty. -/
def replaceAllAux : Nat → List Char → List Char → List Char → List Char
  | 0, cs, _, _ => cs
  | _ + 1, [], _, _ => []
  | fuel + 1, c :: cs, pat, rep =>
      if startsWithChars pat (c :: cs) then
        rep ++ replaceAllAux fuel (List.drop pat.length (c :: cs)) pat rep
      else c :: replaceAllAux fuel cs pat rep

/-- Python `s.replace(pat, rep)` for a nonempty pattern: replace every
non-overlapping occurrence, scanning left to right. -/
def pyReplace (s pat rep : List Char) : List Char :=
  replaceAllAux (s.length + 1) s pat rep

/-- The save-target filename computed by `FreeHandCutPlotter._on_keypress`
for the "s" key, from the mesh's filename (empty list when absent). -/
def freeHandSaveName (filename : List Char) : List Char :=
  if filename = [] then ("mesh_edited.vtk").toList
  else
    let b := pyBasename filename
    let se := pySplitext b
    pyReplace se.1 (("_edited").toList) [] ++ ("_edited").toList ++ se.2

/-! ## AnimationPlayer

`applications.py` lines 1647-1781.  The state the claims speak about is the
stored frame `value` and the playing flag; `pause()` clears the flag (its
timer bookkeeping has no bearing on the claims). -/

/-- The observable state of an `AnimationPlayer`. -/
structure PlayerState where
  value : ℤ
  isPlaying : Bool
deriving DecidableEq

/-- `AnimationPlayer.pause`: stop playing. -/
def playerPause (s : PlayerState) : PlayerState := { s with isPlaying := false }

/-- State immediately after `AnimationPlayer.__init__`: the stored value is
`min_value - 1` and the player is not playing. -/
def playerInit (minv : ℤ) : PlayerState := { value := minv - 1, isPlaying := false }

/-- `AnimationPlayer.set_frame` over the embedded state: resolves the
requested frame `v` (wrapping under `loop`, clamping and pausing otherwise),
then stores it and reports `true` (the user update function `self._func` is
invoked) exactly when it differs from the stored value. -/
def setFrame (minv maxv : ℤ) (loop : Bool) (s : PlayerState) (v : ℤ) :
    PlayerState × Bool :=
  let step :=
    if loop then
      if v < minv then (maxv - 1, s)
      else if maxv ≤ v then (minv, s)
      else (v, s)
    else
      if v < minv then (minv, playerPause s)
      else if maxv - 1 ≤ v then (maxv - 1, playerPause s)
      else (v, s)
  if step.2.value ≠ step.1 then ({ step.2 with value := step.1 }, true)
  else (step.2, false)

/-! ## Assembly: scalar-bar aggregation

`assembly.py` lines 237-247.  A constituent is reduced to its optional scalar
bar (bars are identified by numbers); the aggregation result distinguishes
"no bar", "a single bar adopted directly" and "a Group of bars". -/

/-- One constituent of an `Assembly`, reduced to the state the scalar-bar
aggregation reads: whether it is a positionable 3D prop, and its optional
scalar bar. -/
structure Constituent where
  isProp3D : Bool
  scalarbar : Option ℕ
deriving DecidableEq

/-- The `Assembly.scalarbar` attribute after construction. -/
inductive AsmScalarbar where
  | none
  | single (b : ℕ)
  | group (bs : List ℕ)
deriving DecidableEq

/-- The scalar-bar aggregation of `Assembly.__init__`: collect the non-None
bars of the constituents in order; wrap them in a Group when more than one,
adopt the bar directly when exactly one, leave the attribute unset (None)
otherwise. -/
def assemblyScalarbar (meshs : List Constituent) : AsmScalarbar :=
  match meshs.filterMap (fun a => a.scalarbar) with
  | [] => .none
  | [b] => .single b
  | bs => .group bs

/-! ## procrustes_alignment

`assembly.py` lines 46-70.  The guard loop raising on mismatched point counts
is source code; the VTK `vtkProcrustesAlignmentFilter` it feeds is an external
dependency and is modelled from the spec (section 4.9): iterative least-squares
alignment of all sets to their common evolving mean, initialized from the
centroid.  Points are rational triples. -/

/-- A 3D point. -/
abbrev Pt : Type := ℚ × ℚ × ℚ

/-- Pointwise sum. -/
def ptAdd (p q : Pt) : Pt := (p.1 + q.1, p.2.1 + q.2.1, p.2.2 + q.2.2)

/-- Scalar multiple. -/
def ptSmul (c : ℚ) (p : Pt) : Pt := (c * p.1, c * p.2.1, c * p.2.2)

/-- The origin. -/
def ptZero : Pt := (0, 0, 0)

/-- Centroid of a point set. -/
def centroid (ps : List Pt) : Pt :=
  ptSmul (1 / (ps.length : ℚ)) (ps.foldl ptAdd ptZero)

/-- Modelled from the spec: the mean point set maintained by the external
Procrustes filter — the pointwise mean of the N sets (spec 4.9: "their common
evolving mean"); it has as many points as the first source. -/
def meanPoints (srcs : List (List Pt)) : List Pt :=
  match srcs with
  | [] => []
  | s0 :: _ =>
      (List.range s0.length).map (fun j =>
        ptSmul (1 / (srcs.length : ℚ))
          (srcs.foldl (fun acc l => ptAdd acc (l.getD j ptZero)) ptZero))

/-- Modelled from the spec: one least-squares alignment of a point set toward
the mean — the translational component, moving the set's centroid onto the
target.  It preserves the set's point count (as every rigid/similarity
transform does). -/
def alignTranslate (target : Pt) (ps : List Pt) : List Pt :=
  let c := centroid ps
  ps.map (fun p => ptAdd p (ptAdd target (ptSmul (-1) c)))

/-- Result of a successful `procrustes_alignment`: the aligned copies held by
the returned `Assembly`, and its `info["mean"]` point array. -/
structure ProcResult where
  parts : List (List Pt)
  mean : List Pt

/-- `procrustes_alignment(sources)`: raise (spec kind InvalidInput) as soon as
some source's point count differs from the first source's, before the filter
runs; otherwise return the Assembly of aligned copies plus the mean points. -/
def procrustes_alignment (sources : List (List Pt)) : Except VedoError ProcResult :=
  match sources with
  | [] => .ok { parts := [], mean := [] }
  | s0 :: rest =>
      if (s0 :: rest).all (fun s => s.length = s0.length) then
        let mean := meanPoints (s0 :: rest)
        .ok { parts := (s0 :: rest).map (alignTranslate (centroid mean)), mean := mean }
      else .error .invalidInput

/-! ## Group: constructor flattening

`assembly.py` lines 77-98:

    for a in vedo.utils.flatten(objects):
        if a:
            self.AddPart(a)

`vedo.utils.flatten` is repository code not under src/ and is modelled from
the spec (section 4.3: "deep flattening of nested lists of drawable
objects").  A Python value is an atom (a drawable, None, False, ...) carrying
its truthiness, or a sequence of values. -/

/-- A Python value as seen by the Group constructor: an atom with its
truthiness and an identifier, or a (possibly nested) sequence. -/
inductive PyObj where
  | atom (truthy : Bool) (id : ℕ)
  | seq (items : List PyObj)

/-- Truthiness of a flattened entry (flattening only ever yields atoms). -/
def isTruthy : PyObj → Bool
  | .atom t _ => t
  | .seq _ => true

mutual
/-- Modelled from the spec: `vedo.utils.flatten` — deep (depth-first)
flattening of a possibly nested sequence into its atoms, kept in order. -/
def pyFlatten : PyObj → List PyObj
  | .atom t i => [.atom t i]
  | .seq items => pyFlattenList items

/-- Flattening of a list of values, in order. -/
def pyFlattenList : List PyObj → List PyObj
  | [] => []
  | x :: xs => pyFlatten x ++ pyFlattenList xs
end

/-- The parts added by `Group.__init__`: every flattened entry that is
truthy, in flattening order. -/
def groupParts (objects : PyObj) : List PyObj :=
  (pyFlatten objects).filter isTruthy

mutual
/-- The spec's description of the Group parts, written directly: walk the
nested sequence depth-first and keep exactly the truthy atoms in order. -/
def keepTruthy : PyObj → List PyObj
  | .atom true i => [.atom true i]
  | .atom false _ => []
  | .seq items => keepTruthyList items

/-- Depth-first walk of a list of values keeping truthy atoms. -/
def keepTruthyList : List PyObj → List PyObj
  | [] => []
  | x :: xs => keepTruthy x ++ keepTruthyList xs
end

/-! ## Package bootstrap: font registry

`__init__.py` lines 91-92:

    fonts = [_f.split(".")[0] for _f in os.listdir(fonts_path) if '.npz' not in _f]
    fonts = list(sorted(fonts))
-/

/-- The character run Python tests for with `'.npz' in _f`. -/
def npzChars : List Char := (".npz").toList

/-- Python `_f.split(".")[0]`: the text before the first dot. -/
def fontStem (f : List Char) : List Char := f.takeWhile (fun c => c ≠ '.')

/-- Python string comparison: lexicographic by code point. -/
def lexLe : List Char → List Char → Bool
  | [], _ => true
  | _ :: _, [] => false
  | a :: as, b :: bs =>
      if a.val.toNat < b.val.toNat then true
      else if b.val.toNat < a.val.toNat then false
      else lexLe as bs

/-- `lexLe` as a relation, for sorting. -/
def lexLeR (a b : List Char) : Prop := lexLe a b = true

instance : DecidableRel lexLeR := fun a b => instDecidableEqBool (lexLe a b) true

/-- The resolved font registry as a function of the directory listing:
entries containing ".npz" are dropped, the rest are cut at their first dot
and sorted (Python `sorted` is a stable ascending sort, embedded here as
insertion sort, which agrees with it on every input). -/
def fontsResolve (entries : List (List Char)) : List (List Char) :=
  List.insertionSort lexLeR
    ((entries.filter (fun f => !(hasSubChars npzChars f))).map fontStem)

/-- The claim's reading of the registry, written from the spec's words:
entries whose extension (in the `os.path.splitext` sense) is ".npz" are
dropped, the rest are reduced to their name without extension, and sorted. -/
def fontsClaimed (entries : List (List Char)) : List (List Char) :=
  List.insertionSort lexLeR
    ((entries.filter (fun f => (pySplitext f).2 ≠ npzChars)).map (fun f => (pySplitext f).1))

/-! # Theorems -/

/-! ## C1 — Slicer3DPlotter clamping -/

/-- C1 counterexample: with raw range [0, 10] and meanlog = 2 the code's
display min is 19/50, while the claim's formula — which feeds the raw,
unclamped maximum into the min computation — yields 0. -/
theorem slicer_clamp_rawmax_cex :
    (slicerClampRange 0 10 2).1 ≠ max (0 : ℚ) (2 - (10 - 2) * (9 / 10)) := by
  norm_num [slicerClampRange, min_def, max_def]

/-- C1 amended: the display max is min(rawmax, meanlog + (meanlog-rawmin)*0.9)
as claimed, but the display min is max(rawmin, meanlog - (M - meanlog)*0.9)
where M is the already-clamped display max, not the raw maximum. -/
theorem slicer_clamp_formulas (rmin rmax meanlog : ℚ) :
    (slicerClampRange rmin rmax meanlog).2
        = min rmax (meanlog + (meanlog - rmin) * (9 / 10)) ∧
    (slicerClampRange rmin rmax meanlog).1
        = max rmin (meanlog -
            (min rmax (meanlog + (meanlog - rmin) * (9 / 10)) - meanlog) * (9 / 10)) :=
  ⟨rfl, rfl⟩

/-! ## C5 — Animation time quantization -/

/-- C5 counterexample: at time_resolution = 1/50 (0.02) and start time
t = -13/1000 (-0.013) the code stores 0 (Python int() truncates toward zero),
while rounding to the nearest grid multiple would store -1/50 (-0.02). -/
theorem animation_quantize_cex :
    (animationQuantize (1 / 50) ((-13 : ℚ) / 1000) 0).1
      ≠ ((⌊((-13 : ℚ) / 1000) / (1 / 50) + 1 / 2⌋ : ℚ) * (1 / 50)) := by
  have harg : ((-13 : ℚ) / 1000) / (1 / 50) + 1 / 2 = -3 / 20 := by norm_num
  have hceil : pyInt (((-13 : ℚ) / 1000) / (1 / 50) + 1 / 2) = 0 := by
    rw [pyInt, harg, if_neg (by norm_num), Int.ceil_eq_iff]
    constructor <;> norm_num
  have hfloor : (⌊((-13 : ℚ) / 1000) / (1 / 50) + 1 / 2⌋ : ℤ) = -1 := by
    rw [harg, Int.floor_eq_iff]
    constructor <;> norm_num
  simp only [animationQuantize]
  rw [hceil, hfloor]
  norm_num

/-- C5 amended: for every nonnegative start time and duration (every booking
made with forward times) and positive resolution, the stored start time and
duration are the round-half-up multiples of the resolution,
round(x) = floor(x + 1/2); for negative inputs Python's int() truncates
toward zero instead, as the counterexample shows. -/
theorem animation_quantize_amended (res t duration : ℚ)
    (hres : 0 < res) (ht : 0 ≤ t) (hd : 0 ≤ duration) :
    animationQuantize res t duration
      = ((⌊t / res + 1 / 2⌋ : ℚ) * res, (⌊duration / res + 1 / 2⌋ : ℚ) * res) := by
  have h1 : 0 ≤ t / res + 1 / 2 := by
    have := div_nonneg ht hres.le
    linarith
  have h2 : 0 ≤ duration / res + 1 / 2 := by
    have := div_nonneg hd hres.le
    linarith
  simp only [animationQuantize, pyInt, if_pos h1, if_pos h2]

/-- C5 witness: booking with time_resolution = 1/50 (0.02), t = 13/1000
(0.013) and duration = 47/1000 (0.047) stores start time 1/50 (0.02) and
duration 2/50 (0.04), both grid multiples, matching the spec's example. -/
theorem animation_quantize_amended_witness :
    animationQuantize (1 / 50) (13 / 1000) (47 / 1000) = (1 / 50, 2 / 50) :=
  (animation_quantize_amended (1 / 50) (13 / 1000) (47 / 1000)
      (by norm_num) (by norm_num) (by norm_num)).trans (by
    have h1 : (⌊(13 : ℚ) / 1000 / (1 / 50) + 1 / 2⌋ : ℤ) = 1 := by
      rw [Int.floor_eq_iff]
      constructor <;> norm_num
    have h2 : (⌊(47 : ℚ) / 1000 / (1 / 50) + 1 / 2⌋ : ℤ) = 2 := by
      rw [Int.floor_eq_iff]
      constructor <;> norm_num
    rw [h1, h2]
    norm_num)

/-! ## C2 — Animation.change_lighting, unknown style -/

/-- C2: booking `change_lighting` with the unrecognized style name "flat" on
a nonempty actor list leaves the events list unchanged only because the call
aborts: after logging the error the source reads the unbound local `pars`,
raising NameError, so the call does not return normally as the claim
states. -/
theorem change_lighting_unknown_style_raises :
    changeLightingBook (1 / 50) ("flat") [⟨0, 0, 0, 0⟩] 0 0 [] = .error .nameError := rfl

/-! ## C3 — FreeHandCutPlotter save-target filename -/

/-- C3 counterexample: saving a mesh whose filename is "a_editedb.vtk"
targets "ab_edited.vtk" — `str.replace` removes the "_edited" occurring
inside the stem even though the stem does not end with it — and not the
claimed "a_editedb_edited.vtk". -/
theorem freehand_savename_cex :
    freeHandSaveName (("a_editedb.vtk").toList) ≠ ("a_editedb_edited.vtk").toList := by
  decide

/-- C3 amended: the save target inserts "_edited" before the extension after
removing every occurrence of "_edited" anywhere in the stem (Python
`str.replace`), not only a trailing one; "model.vtk" targets
"model_edited.vtk", re-saving "model_edited.vtk" targets "model_edited.vtk"
again, and a mesh with no filename targets "mesh_edited.vtk". -/
theorem freehand_savename_amended :
    freeHandSaveName [] = ("mesh_edited.vtk").toList ∧
    freeHandSaveName (("model.vtk").toList) = ("model_edited.vtk").toList ∧
    freeHandSaveName (("model_edited.vtk").toList) = ("model_edited.vtk").toList ∧
    ∀ f stem ext : List Char, f ≠ [] → pyBasename f = f → pySplitext f = (stem, ext) →
      freeHandSaveName f
        = pyReplace stem (("_edited").toList) [] ++ ("_edited").toList ++ ext := by
  refine ⟨by decide, by decide, by decide, ?_⟩
  intro f stem ext hne hb hsp
  unfold freeHandSaveName
  rw [if_neg hne]
  simp only [hb, hsp]

/-- C3 witness: the amended statement applied at the concrete filename
"model_edited.vtk", which splits into stem "model_edited" and extension
".vtk". -/
theorem freehand_savename_amended_witness :
    freeHandSaveName (("model_edited.vtk").toList)
      = pyReplace (("model_edited").toList) (("_edited").toList) [] ++ ("_edited").toList
          ++ (".vtk").toList :=
  freehand_savename_amended.2.2.2 (("model_edited.vtk").toList) (("model_edited").toList)
    ((".vtk").toList) (by decide) (by decide) (by decide)

/-! ## C4 — AnimationPlayer.set_frame resolution -/

/-- C4: for every player with min_value < max_value and every requested frame
v: with loop=True, v below min_value resolves to max_value - 1 and v at or
above max_value resolves to min_value; with loop=False, v below min_value
resolves to min_value and pauses, and v at or above max_value - 1 resolves to
max_value - 1 and pauses; and the user update function is invoked exactly
when the resolved value differs from the stored one. -/
theorem animation_player_set_frame_spec (minv maxv : ℤ) (loop : Bool)
    (s : PlayerState) (v : ℤ) (h : minv < maxv) :
    (loop = true → v < minv → (setFrame minv maxv loop s v).1.value = maxv - 1) ∧
    (loop = true → maxv ≤ v → (setFrame minv maxv loop s v).1.value = minv) ∧
    (loop = false → v < minv → (setFrame minv maxv loop s v).1.value = minv ∧
        (setFrame minv maxv loop s v).1.isPlaying = false) ∧
    (loop = false → maxv - 1 ≤ v → (setFrame minv maxv loop s v).1.value = maxv - 1 ∧
        (setFrame minv maxv loop s v).1.isPlaying = false) ∧
    ((setFrame minv maxv loop s v).2 = true
        ↔ (setFrame minv maxv loop s v).1.value ≠ s.value) := by
  rcases loop <;>
    simp only [setFrame, playerPause] <;>
    split_ifs <;>
    simp_all <;>
    omega

/-- C4 witness: with loop=True, min_value=0, max_value=5, from stored frame 2
set_frame(-1) resolves to 4 and set_frame(5) resolves to 0, as in the spec's
example. -/
theorem animation_player_set_frame_witness :
    (setFrame 0 5 true ⟨2, true⟩ (-1)).1.value = 5 - 1 ∧
    (setFrame 0 5 true ⟨2, true⟩ 5).1.value = 0 :=
  ⟨(animation_player_set_frame_spec 0 5 true ⟨2, true⟩ (-1) (by decide)).1 rfl (by decide),
   (animation_player_set_frame_spec 0 5 true ⟨2, true⟩ 5 (by decide)).2.1 rfl (by decide)⟩

/-! ## C10 — AnimationPlayer construction invariant -/

/-- C10: immediately after construction the stored frame equals
min_value - 1 (one below the valid range); after every call to set_frame the
stored frame lies within [min_value, max_value - 1]; and from the initial
state, set_frame(min_value) — what the first timer tick performs — always
invokes the update function. -/
theorem animation_player_init_invariant (minv maxv : ℤ) (loop : Bool)
    (h : minv < maxv) :
    (playerInit minv).value = minv - 1 ∧
    (∀ (s : PlayerState) (v : ℤ),
      minv ≤ (setFrame minv maxv loop s v).1.value ∧
      (setFrame minv maxv loop s v).1.value ≤ maxv - 1) ∧
    (setFrame minv maxv loop (playerInit minv) minv).2 = true := by
  refine ⟨rfl, fun s v => ?_, ?_⟩
  · rcases loop <;>
      simp only [setFrame, playerPause] <;>
      split_ifs <;>
      simp_all <;>
      omega
  · rcases loop <;>
      simp only [setFrame, playerPause, playerInit] <;>
      split_ifs <;>
      simp_all

/-- C10 witness: with min_value=0, max_value=5 the initial stored frame is
-1, a set_frame call lands inside [0, 4], and the first set_frame(0) fires
the update function. -/
theorem animation_player_init_invariant_witness :
    (playerInit 0).value = 0 - 1 ∧
    (0 ≤ (setFrame 0 5 true ⟨-1, false⟩ 7).1.value ∧
      (setFrame 0 5 true ⟨-1, false⟩ 7).1.value ≤ 5 - 1) ∧
    (setFrame 0 5 true (playerInit 0) 0).2 = true :=
  ⟨(animation_player_init_invariant 0 5 true (by decide)).1,
   (animation_player_init_invariant 0 5 true (by decide)).2.1 ⟨-1, false⟩ 7,
   (animation_player_init_invariant 0 5 true (by decide)).2.2⟩

/-! ## C6 — Assembly scalar-bar aggregation -/

/-- C6: when exactly one constituent carries a scalar bar the Assembly adopts
that bar directly, and when two or more carry bars the Assembly's scalarbar
is a Group containing exactly those bars, in constituent order. -/
theorem assembly_scalarbar_spec (meshs : List Constituent) :
    (∀ b : ℕ, meshs.filterMap (fun a => a.scalarbar) = [b] →
      assemblyScalarbar meshs = .single b) ∧
    (2 ≤ (meshs.filterMap (fun a => a.scalarbar)).length →
      assemblyScalarbar meshs = .group (meshs.filterMap (fun a => a.scalarbar))) := by
  constructor
  · intro b hb
    unfold assemblyScalarbar
    rw [hb]
  · intro h2
    unfold assemblyScalarbar
    rcases hfm : meshs.filterMap (fun a => a.scalarbar) with _ | ⟨x, tl⟩
    · rw [hfm] at h2
      simp at h2
    · rcases tl with _ | ⟨y, tl2⟩
      · rw [hfm] at h2
        simp at h2
      · rw [hfm]

/-- C6 witness: one part without a bar plus one part with bar 5 yields bar 5
adopted directly; two parts with bars 1 and 2 yield a Group of exactly
[1, 2]. -/
theorem assembly_scalarbar_witness :
    assemblyScalarbar [⟨true, none⟩, ⟨true, some 5⟩] = .single 5 ∧
    assemblyScalarbar [⟨true, some 1⟩, ⟨true, some 2⟩] = .group [1, 2] :=
  ⟨(assembly_scalarbar_spec [⟨true, none⟩, ⟨true, some 5⟩]).1 5 rfl,
   (assembly_scalarbar_spec [⟨true, some 1⟩, ⟨true, some 2⟩]).2 (by decide)⟩

/-! ## C7 — procrustes_alignment -/

/-- C7: if some source's point count differs from the first source's, the
call fails with InvalidInput before the alignment filter runs; if all sources
share the first source's point count p, the call returns an Assembly with one
aligned copy per source whose mean point array has exactly p points. -/
theorem procrustes_alignment_spec (s0 : List Pt) (rest : List (List Pt)) :
    ((∃ s ∈ s0 :: rest, s.length ≠ s0.length) →
      procrustes_alignment (s0 :: rest) = .error .invalidInput) ∧
    ((∀ s ∈ s0 :: rest, s.length = s0.length) →
      ∃ r, procrustes_alignment (s0 :: rest) = .ok r ∧
        r.parts.length = (s0 :: rest).length ∧ r.mean.length = s0.length) := by
  have hiff : ((s0 :: rest).all (fun s => s.length = s0.length) = true)
      ↔ ∀ s ∈ s0 :: rest, s.length = s0.length := by
    simp [List.all_eq_true]
  constructor
  · rintro ⟨s, hs, hne⟩
    simp only [procrustes_alignment]
    rw [if_neg]
    intro hall
    exact hne (hiff.mp hall s hs)
  · intro hall
    simp only [procrustes_alignment]
    rw [if_pos (hiff.mpr hall)]
    exact ⟨_, rfl, by simp, by simp [meanPoints]⟩

/-- C7 witness: sources of sizes (2, 2, 1) fail with InvalidInput, and
sources of sizes (2, 2, 2) succeed with 3 aligned parts and a 2-point
mean. -/
theorem procrustes_alignment_witness :
    procrustes_alignment [[ptZero, ptZero], [ptZero, ptZero], [ptZero]]
        = .error .invalidInput ∧
    ∃ r, procrustes_alignment [[ptZero, ptZero], [ptZero, ptZero], [ptZero, ptZero]]
        = .ok r ∧ r.parts.length = 3 ∧ r.mean.length = 2 :=
  ⟨(procrustes_alignment_spec [ptZero, ptZero] [[ptZero, ptZero], [ptZero]]).1
      ⟨[ptZero], by simp, by decide⟩,
   (procrustes_alignment_spec [ptZero, ptZero] [[ptZero, ptZero], [ptZero, ptZero]]).2
      (by decide)⟩

/-! ## C8 — Group constructor flattening -/

/-- Helper: filtering the depth-first flattening by truthiness is the same as
walking the nested value and keeping exactly the truthy atoms. -/
theorem pyFlatten_filter_eq_keepTruthy (o : PyObj) :
    (pyFlatten o).filter isTruthy = keepTruthy o :=
  @PyObj.rec (fun o => (pyFlatten o).filter isTruthy = keepTruthy o)
    (fun l => (pyFlattenList l).filter isTruthy = keepTruthyList l)
    (fun t i => by cases t <;> simp [pyFlatten, keepTruthy, isTruthy])
    (fun items ih => by simpa [pyFlatten, keepTruthy] using ih)
    (by simp [pyFlattenList, keepTruthyList])
    (fun x xs ihx ihxs => by
      simp [pyFlattenList, keepTruthyList, List.filter_append, ihx, ihxs])
    o

/-- C8: the parts of a Group are exactly the depth-first flattening of the
input sequence with every falsy entry skipped, in original order; in
particular the sequence [a, None, [b, False, c]] yields the parts
[a, b, c]. -/
theorem group_flatten_spec :
    (∀ objects : PyObj, groupParts objects = keepTruthy objects) ∧
    groupParts (.seq [.atom true 1, .atom false 2,
        .seq [.atom true 3, .atom false 4, .atom true 5]])
      = [.atom true 1, .atom true 3, .atom true 5] := by
  constructor
  · intro objects
    exact pyFlatten_filter_eq_keepTruthy objects
  · rfl

/-! ## C9 — font registry -/

/-- Helper: the code-point lexicographic order on names is total. -/
theorem lexLe_total : ∀ a b : List Char, lexLe a b = true ∨ lexLe b a = true := by
  intro a
  induction a with
  | nil => intro b; left; rfl
  | cons x xs ih =>
    intro b
    cases b with
    | nil => right; rfl
    | cons y ys =>
      simp only [lexLe]
      rcases Nat.lt_trichotomy x.val.toNat y.val.toNat with h | h | h
      · left
        rw [if_pos h]
      · have h1 : ¬ x.val.toNat < y.val.toNat := by omega
        have h2 : ¬ y.val.toNat < x.val.toNat := by omega
        rw [if_neg h1, if_neg h2, if_neg h2, if_neg h1]
        exact ih ys
      · right
        rw [if_pos h]

/-- Helper: the code-point lexicographic order on names is transitive. -/
theorem lexLe_trans : ∀ a b c : List Char,
    lexLe a b = true → lexLe b c = true → lexLe a c = true := by
  intro a
  induction a with
  | nil => intro b c _ _; rfl
  | cons x xs ih =>
    intro b c hab hbc
    cases b with
    | nil => simp [lexLe] at hab
    | cons y ys =>
      cases c with
      | nil => simp [lexLe] at hbc
      | cons z zs =>
        simp only [lexLe] at hab hbc ⊢
        by_cases h1 : x.val.toNat < y.val.toNat
        · by_cases h2 : y.val.toNat < z.val.toNat
          · have hx : x.val.toNat < z.val.toNat := by omega
            rw [if_pos hx]
          · by_cases h3 : z.val.toNat < y.val.toNat
            · rw [if_neg h2, if_pos h3] at hbc
              simp at hbc
            · have hx : x.val.toNat < z.val.toNat := by omega
              rw [if_pos hx]
        · by_cases h4 : y.val.toNat < x.val.toNat
          · rw [if_neg h1, if_pos h4] at hab
            simp at hab
          · rw [if_neg h1, if_neg h4] at hab
            by_cases h2 : y.val.toNat < z.val.toNat
            · have hx : x.val.toNat < z.val.toNat := by omega
              rw [if_pos hx]
            · by_cases h3 : z.val.toNat < y.val.toNat
              · rw [if_neg h2, if_pos h3] at hbc
                simp at hbc
              · rw [if_neg h2, if_neg h3] at hbc
                have hx1 : ¬ x.val.toNat < z.val.toNat := by omega
                have hx2 : ¬ z.val.toNat < x.val.toNat := by omega
                rw [if_neg hx1, if_neg hx2]
                exact ih ys zs hab hbc

/-- C9 counterexample: a fonts directory containing only "x.npz.ttf" resolves
to the empty registry — the code drops every entry containing ".npz"
anywhere — while the claim (exclude only entries whose extension is .npz,
keep the name without extension) would resolve it to ["x.npz"]. -/
theorem fonts_registry_cex :
    fontsResolve [("x.npz.ttf").toList] ≠ fontsClaimed [("x.npz.ttf").toList] := by
  decide

/-- C9 amended: the registry drops every directory entry containing ".npz"
anywhere in its name (not only those with extension .npz), reduces each
remaining entry to the text before its first dot (not the last), and sorts
the result by code point: it is a sorted permutation of exactly those stems,
and the claim's example [A.ttf, A.npz, B.otf] still resolves to [A, B]. -/
theorem fonts_registry_amended :
    (∀ entries : List (List Char),
      List.Sorted lexLeR (fontsResolve entries) ∧
      (fontsResolve entries).Perm
        ((entries.filter (fun f => !(hasSubChars npzChars f))).map fontStem)) ∧
    fontsResolve [("A.ttf").toList, ("A.npz").toList, ("B.otf").toList]
      = [("A").toList, ("B").toList] := by
  constructor
  · intro entries
    constructor
    · exact @List.sorted_insertionSort _ lexLeR inferInstance ⟨lexLe_total⟩
        ⟨fun a b c => lexLe_trans a b c⟩ _
    · exact List.perm_insertionSort lexLeR _
  · decide
